import Mathlib

/-!
Verification development for `vendor_monitor.py` (vendorMonitor repository).

The Python source is shallowly embedded in Lean:
* Python strings are Lean `String`s; `str.strip`, `str.upper` and
  `str.endswith` are modelled over the underlying character list
  (`pyStrip`, `pyUpper`, `pyEndsWith`).
* Python `round(x, 2)` (round-half-to-even on decimals) is modelled over
  `ℚ` by `round2`.
* The two network collaborators (yfinance history and NewsAPI search) are
  modelled as oracles: a function from the index of the call to the
  response of that call.  A call counter is threaded through the fetch
  loops so that theorems can speak about how many collaborator calls a
  run performs; backoff sleeps are recorded as a trace of durations.
* The invalid-credential re-raise in `get_news_articles` is modelled as
  the `Except.error` branch of the fetch result.
-/

namespace VendorMonitor

/-- Python `str.strip()`: drop leading and trailing whitespace characters. -/
def pyStrip (s : String) : String :=
  ⟨((s.data.dropWhile Char.isWhitespace).reverse.dropWhile Char.isWhitespace).reverse⟩

/-- Python `str.upper()` (modelled per-character). -/
def pyUpper (s : String) : String :=
  ⟨s.data.map Char.toUpper⟩

/-- Python `str.endswith(suf)`. -/
def pyEndsWith (s suf : String) : Bool :=
  suf.data.isSuffixOf s.data

/-- Python `s[:-n]`: drop the last `n` characters. -/
def pyDropRight (s : String) (n : Nat) : String :=
  ⟨s.data.take (s.data.length - n)⟩

/-- Python `round` to an integer: round half to even (banker's rounding),
modelled over `ℚ`. -/
def pyRound (x : ℚ) : ℤ :=
  let f := x.floor
  let r := x - f
  if r < 1/2 then f
  else if r > 1/2 then f + 1
  else if f % 2 = 0 then f else f + 1

/-- Python `round(x, 2)` over `ℚ`. -/
def round2 (x : ℚ) : ℚ := (pyRound (x * 100) : ℚ) / 100

/-- `Rat.floor` agrees with the mathematical floor. -/
lemma ratFloor_eq_floor (q : ℚ) : q.floor = ⌊q⌋ :=
  (Rat.floor_def' q).trans Rat.floor_def.symm

lemma pyRound_nonneg {x : ℚ} (h : 0 ≤ x) : 0 ≤ pyRound x := by
  simp only [pyRound, ratFloor_eq_floor]
  have hf : (0:ℤ) ≤ ⌊x⌋ := Int.floor_nonneg.mpr h
  split
  · exact hf
  · split
    · omega
    · split
      · exact hf
      · omega

lemma round2_nonneg {x : ℚ} (h : 0 ≤ x) : 0 ≤ round2 x := by
  have := pyRound_nonneg (by positivity : (0:ℚ) ≤ x * 100)
  simp only [round2]
  positivity

/-- The ordered corporate-suffix list of `get_smart_search_queries`
(vendor_monitor.py lines 279-288), most specific first. -/
def suffixes : List String :=
  [" Holding Corporation", " Holding Corp.",
   " Corporation", " Incorporated",
   " Holdings", " Company", " Limited",
   " Corp.", " Corp",
   " Inc.", " Inc",
   " Co.", " Co",
   " Ltd.", " Ltd",
   " L.L.C.", " LLC", " PLC", " Group"]

/-- The suffix-stripping loop of `get_smart_search_queries`
(vendor_monitor.py lines 290-294): strip the first matching suffix from
the ordered list, then `strip()`; at most one suffix is removed (the
loop `break`s after the first match). -/
def stripSuffixLoop (company_name : String) : String :=
  match suffixes.find? (fun suf => pyEndsWith company_name suf) with
  | some suf => pyStrip (pyDropRight company_name suf.data.length)
  | none => company_name

/-- `get_smart_search_queries` (vendor_monitor.py lines 264-310). -/
def get_smart_search_queries (company_name symbol : String) : List String :=
  (if company_name ≠ "" then
    let short_name := stripSuffixLoop company_name
    (if short_name ≠ company_name then [short_name] else []) ++
    [company_name] ++
    (if short_name ≠ company_name then [short_name ++ " " ++ symbol] else [])
  else []) ++ [symbol]

/-- `get_max_sentiment` (vendor_monitor.py lines 439-466). -/
def get_max_sentiment (sentiments : List String) : String :=
  if sentiments.isEmpty || sentiments.all (fun s => s = "N/A") then "N/A"
  else
    let valid_sentiments := sentiments.filter (fun s => s ≠ "N/A")
    if valid_sentiments.isEmpty then "N/A"
    else if valid_sentiments.contains "bullish" then "bullish"
    else if valid_sentiments.contains "neutral" then "neutral"
    else "bearish"

/-- `analyze_sentiment_vader` (vendor_monitor.py lines 182-209).  The
VADER analyzer is abstracted as an oracle `compound : String → ℚ` giving
the compound polarity score of a text. -/
def analyze_sentiment_vader (text : String) (compound : String → ℚ) : String :=
  if text = "" ∨ text = "N/A" then "N/A"
  else if compound text ≥ 5/100 then "bullish"
  else if compound text ≤ -(5/100) then "bearish"
  else "neutral"

/-! ## Stock fetch (`get_stock_data`, vendor_monitor.py lines 212-261) -/

/-- One daily bar of the 5-day price history returned by the market-data
collaborator. -/
structure Bar where
  close : ℚ
  volume : ℤ
deriving DecidableEq, Repr

/-- Outcome of one call to the market-data collaborator: a history window,
a malformed-data error (`KeyError`), or a transient error (any other
exception). -/
inductive StockResp
  | history (bars : List Bar)
  | keyError
  | otherError
deriving DecidableEq, Repr

/-- Result of the stock fetch, instrumented with the number of collaborator
calls made and the trace of backoff sleep durations (seconds). -/
structure StockFetchOut where
  quote : ℚ × ℚ × ℤ
  calls : ℕ
  sleeps : List ℕ
deriving DecidableEq, Repr

/-- The retry loop of `get_stock_data` (lines 223-261), from attempt number
`attempt` on, with `fuel` loop iterations remaining (`for attempt in
range(max_retries)` is entered with `fuel = max_retries`, so `fuel =
max_retries - attempt` throughout).  The collaborator is the oracle
`resp`, indexed by attempt number.  The `fuel = 0` fallthrough is
unreachable when `max_retries ≥ 1` (every branch of the final attempt,
where `attempt = max_retries - 1`, returns). -/
def stockLoop (resp : ℕ → StockResp) (max_retries : ℕ) : (attempt fuel : ℕ) → StockFetchOut
  | attempt, 0 => ⟨(0, 0, 0), attempt, []⟩
  | attempt, fuel + 1 =>
    match resp attempt with
    | .history bars =>
      if bars.isEmpty then ⟨(0, 0, 0), attempt + 1, []⟩
      else
        let latest := bars.getLastD ⟨0, 0⟩
        let close_price := round2 latest.close
        let volume := latest.volume
        let pct_change :=
          if 2 ≤ bars.length then
            let prev_close := (bars.getD (bars.length - 2) ⟨0, 0⟩).close
            round2 ((close_price - prev_close) / prev_close * 100)
          else 0
        ⟨(close_price, pct_change, volume), attempt + 1, []⟩
    | .keyError => ⟨(0, 0, 0), attempt + 1, []⟩
    | .otherError =>
      if attempt < max_retries - 1 then
        let rest := stockLoop resp max_retries (attempt + 1) fuel
        ⟨rest.quote, rest.calls, 2 ^ attempt :: rest.sleeps⟩
      else ⟨(0, 0, 0), attempt + 1, []⟩

/-- `get_stock_data` (vendor_monitor.py lines 212-261). -/
def get_stock_data (resp : ℕ → StockResp) (max_retries : ℕ) : StockFetchOut :=
  stockLoop resp max_retries 0 max_retries

/-! ## News fetch (`get_news_articles`, vendor_monitor.py lines 313-436) -/

/-- A raw article as returned by the news-search collaborator. -/
structure RawArticle where
  title : String
  description : String
  content : String
deriving DecidableEq, Repr

/-- An article record produced by `get_news_articles` (lines 392-397). -/
structure ProcArticle where
  title : String
  description : String
  content : String
  full_text : String
deriving DecidableEq, Repr

/-- Outcome of one call to the news-search collaborator: a status-ok
response with a (possibly empty) article list, a missing/not-ok response,
a rate-limit error, an invalid-api-key error, or any other (retryable)
error. -/
inductive NewsResp
  | ok (articles : List RawArticle)
  | invalid
  | rateLimited
  | apiKeyInvalid
  | otherError
deriving DecidableEq, Repr

/-- `full_text` of an article (line 390):
`f"{title}. {description} {content}".strip()`. -/
def mkFullText (a : RawArticle) : String :=
  pyStrip (a.title ++ ". " ++ a.description ++ " " ++ a.content)

/-- The article-processing loop of `get_news_articles` (lines 381-397):
keep the first `max_articles` articles, drop those whose title is empty
or the sentinel `"[Removed]"`, and attach the derived `full_text`. -/
def processArticles (max_articles : ℕ) (articles : List RawArticle) : List ProcArticle :=
  (articles.take max_articles).filterMap (fun a =>
    if a.title ≠ "" ∧ a.title ≠ "[Removed]" then
      some ⟨a.title, a.description, a.content, mkFullText a⟩
    else none)

/-- How the retry loop for one (query, domain-tier) combination ends:
with a non-empty usable-article list, with nothing (fall through to the
next combination), with a rate-limit error, or with the invalid-credential
error. -/
inductive TierOutcome
  | found (articles : List ProcArticle)
  | noResult
  | rateLim
  | credErr
deriving DecidableEq, Repr

/-- The retry loop of `get_news_articles` for one (query, domain-tier)
combination (lines 349-432), entered at attempt `attempt` with `fuel`
loop iterations remaining (the loop is entered at attempt 0 with `fuel =
max_retries`) and `k` search calls already made during this fetch.
Returns the outcome and the new call count.  The `fuel = 0` fallthrough
(loop body never runs) behaves like falling through to the next
combination. -/
def attemptLoop (resp : ℕ → NewsResp) (max_articles max_retries : ℕ) :
    (k attempt fuel : ℕ) → TierOutcome × ℕ
  | k, _, 0 => (.noResult, k)
  | k, attempt, fuel + 1 =>
    match resp k with
    | .ok articles =>
      if articles.isEmpty then (.noResult, k + 1)
      else
        let article_list := processArticles max_articles articles
        if article_list.isEmpty then (.noResult, k + 1)
        else (.found article_list, k + 1)
    | .invalid => (.noResult, k + 1)
    | .rateLimited => (.rateLim, k + 1)
    | .apiKeyInvalid => (.credErr, k + 1)
    | .otherError =>
      if attempt < max_retries - 1 then
        attemptLoop resp max_articles max_retries (k + 1) (attempt + 1) fuel
      else (.noResult, k + 1)

/-- The outer cascade of `get_news_articles` (lines 339-436) over the
remaining (query, use_domains) combinations, with `k` search calls already
made.  `Except.error ()` models the re-raised invalid-credential
exception; `Except.ok` carries the returned article list and the total
number of search calls. -/
def tierLoop (resp : ℕ → NewsResp) (max_articles max_retries : ℕ) :
    ℕ → List (String × Bool) → Except Unit (List ProcArticle × ℕ)
  | k, [] => .ok ([], k)
  | k, _c :: rest =>
    match attemptLoop resp max_articles max_retries k 0 max_retries with
    | (.found article_list, kf) => .ok (article_list, kf)
    | (.noResult, kf) => tierLoop resp max_articles max_retries kf rest
    | (.rateLim, kf) => .ok ([], kf)
    | (.credErr, _) => .error ()

/-- The (query, use_domains) combinations in evaluation order (lines
339-343): for each query, the domain-restricted tier (`true`) then the
unrestricted tier (`false`). -/
def newsCombos (queries : List String) : List (String × Bool) :=
  queries.flatMap (fun q => [(q, true), (q, false)])

/-- `get_news_articles` (vendor_monitor.py lines 313-436). -/
def get_news_articles (resp : ℕ → NewsResp) (symbol company_name : String)
    (max_articles max_retries : ℕ) : Except Unit (List ProcArticle × ℕ) :=
  tierLoop resp max_articles max_retries 0
    (newsCombos (get_smart_search_queries company_name symbol))

/-! ## Pipeline (`process_vendors`, vendor_monitor.py lines 469-715)

The run is modelled with the VADER analyzer configured (`analyzer ==
'vader'`); the classifier is the oracle `compound`.  CSV reading, report
writing and logging are external collaborators and are not modelled; the
model covers the per-vendor loop (lines 578-664) and the accumulated
rows/statistics. -/

/-- The statistics accumulator (lines 484-492). -/
structure Stats where
  total_vendors : ℕ
  stock_success : ℕ
  stock_failures : ℕ
  news_success : ℕ
  news_failures : ℕ
  total_headlines : ℕ
  errors : List String
deriving DecidableEq, Repr

/-- One row of the vendor stock report (lines 648-655). -/
structure StockRow where
  symbol : String
  companyname : String
  closeprice : ℚ
  pctchange : ℚ
  volume : ℤ
  sentiment : String
deriving DecidableEq, Repr

/-- One row of the vendor headline report (lines 624-628). -/
structure HeadlineRow where
  symbol : String
  headline : String
  sentiment : String
deriving DecidableEq, Repr

/-- The mutable state of a run: statistics and the two row buffers
(lines 546-547). -/
structure RunState where
  stats : Stats
  stock_data : List StockRow
  headline_data : List HeadlineRow
deriving DecidableEq, Repr

/-- One input vendor record, bundled with the oracles describing how the
two network collaborators respond to this vendor's calls. -/
structure VendorInput where
  symbol : String
  companyname : String
  stockResp : ℕ → StockResp
  newsResp : ℕ → NewsResp

/-- The body of the per-vendor loop (lines 578-664) for the vendor at
1-based position `idx`.  An empty normalized symbol is skipped (lines
583-585).  The invalid-credential error propagating out of
`get_news_articles` is caught by the blanket `except Exception` handler
(lines 661-664), which records the error and continues with the next
vendor — at that point no row for this vendor has been appended yet. -/
def processVendor (compound : String → ℚ) (idx : ℕ) (st : RunState) (v : VendorInput) :
    RunState :=
  let symbol := pyUpper (pyStrip v.symbol)
  let company_name := pyStrip v.companyname
  if symbol = "" then st
  else
    let out := get_stock_data v.stockResp 3
    let close_price := out.quote.1
    let pct_change := out.quote.2.1
    let volume := out.quote.2.2
    let stats1 :=
      if close_price > 0 then { st.stats with stock_success := st.stats.stock_success + 1 }
      else
        { st.stats with
            stock_failures := st.stats.stock_failures + 1,
            errors := st.stats.errors ++ [symbol ++ ": No stock data available"] }
    match get_news_articles v.newsResp symbol company_name 10 3 with
    | .error _ =>
      { st with stats := { stats1 with errors := stats1.errors ++
          ["Row " ++ toString idx ++ ": Unexpected error - invalid api key"] } }
    | .ok (articles, _) =>
      if articles.isEmpty then
        let stats2 :=
          { stats1 with
              news_failures := stats1.news_failures + 1,
              errors := stats1.errors ++ [symbol ++ ": No articles found"] }
        let article_sentiments := ["N/A"]
        { stats := stats2,
          headline_data := st.headline_data ++ [⟨symbol, "N/A", "N/A"⟩],
          stock_data := st.stock_data ++
            [⟨symbol, company_name, close_price, pct_change, volume,
              get_max_sentiment article_sentiments⟩] }
      else
        let article_sentiments :=
          articles.map (fun a => analyze_sentiment_vader a.full_text compound)
        let stats2 :=
          { stats1 with
              news_success := stats1.news_success + 1,
              total_headlines := stats1.total_headlines + articles.length }
        { stats := stats2,
          headline_data := st.headline_data ++ articles.map (fun a =>
            HeadlineRow.mk symbol a.title (analyze_sentiment_vader a.full_text compound)),
          stock_data := st.stock_data ++
            [⟨symbol, company_name, close_price, pct_change, volume,
              get_max_sentiment article_sentiments⟩] }

/-- The vendor loop (`for idx, vendor in enumerate(vendors, 1)`). -/
def processLoop (compound : String → ℚ) : ℕ → RunState → List VendorInput → RunState
  | _, st, [] => st
  | idx, st, v :: rest => processLoop compound (idx + 1) (processVendor compound idx st v) rest

/-- The run state before the vendor loop: `total_vendors` set to the
input length (line 559), all counters zero, empty buffers. -/
def initState (n : ℕ) : RunState :=
  ⟨⟨n, 0, 0, 0, 0, 0, []⟩, [], []⟩

/-- `process_vendors` (vendor_monitor.py lines 469-715), restricted to the
modelled core: the vendor loop over the already-parsed input records. -/
def process_vendors (compound : String → ℚ) (vendors : List VendorInput) : RunState :=
  processLoop compound 1 (initState vendors.length) vendors

/-! ## Claims -/

/-- C3: For every finite sequence of sentiment labels, `get_max_sentiment`
returns `"N/A"` if the sequence is empty or every element is `"N/A"`;
otherwise it returns `"bullish"` if any element is `"bullish"`, else
`"neutral"` if any element is `"neutral"`, else `"bearish"` — the
max-by-precedence reduction (bullish > neutral > bearish) with `"N/A"`
excluded from the vote. -/
theorem C3_get_max_sentiment_spec (sentiments : List String)
    (hdom : ∀ s ∈ sentiments, s = "bullish" ∨ s = "bearish" ∨ s = "neutral" ∨ s = "N/A") :
    (get_max_sentiment sentiments = "N/A" ↔
      sentiments = [] ∨ ∀ s ∈ sentiments, s = "N/A") ∧
    ((∃ s ∈ sentiments, s ≠ "N/A") →
      get_max_sentiment sentiments =
        if "bullish" ∈ sentiments then "bullish"
        else if "neutral" ∈ sentiments then "neutral"
        else "bearish") := by
  by_cases hAll : sentiments = [] ∨ ∀ s ∈ sentiments, s = "N/A"
  · have hcond : (sentiments.isEmpty || sentiments.all (fun s => s = "N/A")) = true := by
      rcases hAll with h | h
      · simp [h]
      · simp only [Bool.or_eq_true, List.all_eq_true, decide_eq_true_iff]
        exact Or.inr h
    constructor
    · simp [get_max_sentiment, hcond, hAll]
    · rintro ⟨s, hs, hsne⟩
      rcases hAll with h | h
      · simp [h] at hs
      · exact absurd (h s hs) hsne
  · push_neg at hAll
    obtain ⟨hne, s, hs, hsne⟩ := hAll
    have hcond : (sentiments.isEmpty || sentiments.all (fun s => s = "N/A")) = false := by
      rw [Bool.or_eq_false_iff]
      constructor
      · rwa [Bool.eq_false_iff, Ne, List.isEmpty_iff]
      · rw [Bool.eq_false_iff]
        intro h
        rw [List.all_eq_true] at h
        exact hsne (by simpa using h s hs)
    have hmemfilter : ∀ t : String,
        t ≠ "N/A" → ((sentiments.filter (fun x => x ≠ "N/A")).contains t ↔ t ∈ sentiments) := by
      intro t ht
      rw [List.contains_iff_exists_mem_beq]
      constructor
      · rintro ⟨u, hu, hbeq⟩
        rw [beq_iff_eq] at hbeq
        exact hbeq ▸ (List.mem_filter.mp hu).1
      · intro htmem
        exact ⟨t, List.mem_filter.mpr ⟨htmem, by simpa using ht⟩, beq_iff_eq.mpr rfl⟩
    have hvalidne : (sentiments.filter (fun x => x ≠ "N/A")).isEmpty = false := by
      rw [Bool.eq_false_iff, Ne, List.isEmpty_iff, List.eq_nil_iff_forall_not_mem]
      push_neg
      exact ⟨s, List.mem_filter.mpr ⟨hs, by simpa using hsne⟩⟩
    have hgoal : get_max_sentiment sentiments =
        if "bullish" ∈ sentiments then "bullish"
        else if "neutral" ∈ sentiments then "neutral"
        else "bearish" := by
      rw [get_max_sentiment, hcond]
      simp only [Bool.false_eq_true, if_false, hvalidne]
      by_cases hb : "bullish" ∈ sentiments
      · rw [if_pos ((hmemfilter "bullish" (by decide)).mpr hb), if_pos hb]
      · rw [if_neg (fun hc => hb ((hmemfilter "bullish" (by decide)).mp hc)), if_neg hb]
        by_cases hn : "neutral" ∈ sentiments
        · rw [if_pos ((hmemfilter "neutral" (by decide)).mpr hn), if_pos hn]
        · rw [if_neg (fun hc => hn ((hmemfilter "neutral" (by decide)).mp hc)), if_neg hn]
    refine ⟨?_, fun _ => hgoal⟩
    rw [hgoal]
    constructor
    · intro h
      exfalso
      by_cases hb : "bullish" ∈ sentiments
      · rw [if_pos hb] at h; exact absurd h (by decide)
      · rw [if_neg hb] at h
        by_cases hn : "neutral" ∈ sentiments
        · rw [if_pos hn] at h; exact absurd h (by decide)
        · rw [if_neg hn] at h; exact absurd h (by decide)
    · rintro (h | h)
      · exact absurd h hne
      · exact absurd (h s hs) hsne

/-- Witness for C3 at the spec's own examples. -/
theorem C3_witness :
    get_max_sentiment ["bearish", "neutral", "bullish"] = "bullish" ∧
    get_max_sentiment ["bearish", "neutral"] = "neutral" ∧
    get_max_sentiment ["bearish"] = "bearish" ∧
    get_max_sentiment [] = "N/A" ∧
    get_max_sentiment ["N/A", "N/A"] = "N/A" := by
  refine ⟨?_, ?_, ?_, ?_, ?_⟩
  · have h := (C3_get_max_sentiment_spec ["bearish", "neutral", "bullish"] (by decide)).2
      ⟨"bullish", by decide, by decide⟩
    rw [h]; decide
  · have h := (C3_get_max_sentiment_spec ["bearish", "neutral"] (by decide)).2
      ⟨"neutral", by decide, by decide⟩
    rw [h]; decide
  · have h := (C3_get_max_sentiment_spec ["bearish"] (by decide)).2
      ⟨"bearish", by decide, by decide⟩
    rw [h]; decide
  · exact (C3_get_max_sentiment_spec [] (by simp)).1.mpr (Or.inl rfl)
  · exact (C3_get_max_sentiment_spec ["N/A", "N/A"] (by decide)).1.mpr (Or.inr (by decide))

lemma pyStrip_length_le (s : String) : (pyStrip s).data.length ≤ s.data.length := by
  simp only [pyStrip]
  calc ((s.data.dropWhile Char.isWhitespace).reverse.dropWhile Char.isWhitespace).reverse.length
      = ((s.data.dropWhile Char.isWhitespace).reverse.dropWhile Char.isWhitespace).length :=
        List.length_reverse _
    _ ≤ (s.data.dropWhile Char.isWhitespace).reverse.length :=
        (List.dropWhile_sublist _).length_le
    _ = (s.data.dropWhile Char.isWhitespace).length := List.length_reverse _
    _ ≤ s.data.length := (List.dropWhile_sublist _).length_le

lemma suffixes_data_pos : ∀ suf ∈ suffixes, 0 < suf.data.length := by decide

lemma data_ne_nil_of_ne_empty {s : String} (h : s ≠ "") : s.data ≠ [] := by
  intro hd
  exact h (String.ext (hd.trans rfl))

/-- C4: the query-generation function strips at most one trailing corporate
suffix (the first match in the ordered most-specific-first list) and
returns, in order: shortened name (only if it differs from the original),
full company name, shortened name plus symbol (only if a shortened name
was produced), and the bare symbol; with the two concrete examples
`("Paylocity Holding Corp.", "PCTY")` and `("", "PCTY")`. -/
theorem C4_get_smart_search_queries_spec (company_name symbol : String) :
    (company_name = "" → get_smart_search_queries company_name symbol = [symbol]) ∧
    (company_name ≠ "" →
      suffixes.find? (fun suf => pyEndsWith company_name suf) = none →
      get_smart_search_queries company_name symbol = [company_name, symbol]) ∧
    (∀ suf, company_name ≠ "" →
      suffixes.find? (fun suf => pyEndsWith company_name suf) = some suf →
      get_smart_search_queries company_name symbol =
        [pyStrip (pyDropRight company_name suf.data.length), company_name,
         pyStrip (pyDropRight company_name suf.data.length) ++ " " ++ symbol, symbol]) ∧
    get_smart_search_queries "Paylocity Holding Corp." "PCTY" =
      ["Paylocity", "Paylocity Holding Corp.", "Paylocity PCTY", "PCTY"] ∧
    get_smart_search_queries "" "PCTY" = ["PCTY"] := by
  refine ⟨?_, ?_, ?_, by decide, by decide⟩
  · intro h
    simp [get_smart_search_queries, h]
  · intro hne hfind
    have hshort : stripSuffixLoop company_name = company_name := by
      rw [stripSuffixLoop, hfind]
    rw [get_smart_search_queries]
    rw [if_pos hne]
    simp [hshort]
  · intro suf hne hfind
    have hmem : suf ∈ suffixes := List.mem_of_find?_eq_some hfind
    have hsufpos : 0 < suf.data.length := suffixes_data_pos suf hmem
    have hcnpos : 0 < company_name.data.length :=
      List.length_pos.mpr (data_ne_nil_of_ne_empty hne)
    have hshortlen :
        (pyStrip (pyDropRight company_name suf.data.length)).data.length <
          company_name.data.length := by
      have h1 := pyStrip_length_le (pyDropRight company_name suf.data.length)
      have h2 : (pyDropRight company_name suf.data.length).data.length =
          company_name.data.length - suf.data.length := by
        simp [pyDropRight]
      omega
    have hshortne : stripSuffixLoop company_name ≠ company_name := by
      rw [stripSuffixLoop, hfind]
      intro hEq
      have := congrArg (fun s => s.data.length) hEq
      simp only at this
      omega
    have hshortval : stripSuffixLoop company_name =
        pyStrip (pyDropRight company_name suf.data.length) := by
      rw [stripSuffixLoop, hfind]
    rw [get_smart_search_queries, if_pos hne]
    simp only [hshortval ▸ hshortne, hshortval, if_pos, ne_eq, not_false_iff, if_true]
    simp

/-- Witness for C4: a company name matching a suffix, one matching none,
and the empty company name. -/
theorem C4_witness :
    get_smart_search_queries "" "PCTY" = ["PCTY"] ∧
    get_smart_search_queries "Guidewire" "GWRE" = ["Guidewire", "GWRE"] ∧
    get_smart_search_queries "Fiserv Inc." "FISV" =
      [pyStrip (pyDropRight "Fiserv Inc." " Inc.".data.length), "Fiserv Inc.",
       pyStrip (pyDropRight "Fiserv Inc." " Inc.".data.length) ++ " " ++ "FISV", "FISV"] :=
  ⟨(C4_get_smart_search_queries_spec "" "PCTY").1 rfl,
   (C4_get_smart_search_queries_spec "Guidewire" "GWRE").2.1 (by decide) (by decide),
   (C4_get_smart_search_queries_spec "Fiserv Inc." "FISV").2.2.1 " Inc." (by decide) (by decide)⟩

lemma pyRound_intCast (n : ℤ) : pyRound (n : ℚ) = n := by
  simp only [pyRound, ratFloor_eq_floor, Int.floor_intCast, sub_self]
  norm_num

lemma round2_intCast (n : ℤ) : round2 ((n : ℚ)) = (n : ℚ) := by
  have h : ((n : ℚ) * 100) = ((n * 100 : ℤ) : ℚ) := by push_cast; ring
  rw [round2, h, pyRound_intCast]
  push_cast
  ring

/-- On exhaustion of an all-transient-errors oracle, `stockLoop` returns
the zero-sentinel quote after `max_retries` calls, sleeping
`2^attempt` seconds between consecutive attempts. -/
lemma stockLoop_exhaust (resp : ℕ → StockResp) (max_retries : ℕ) :
    ∀ fuel attempt, fuel = max_retries - attempt → attempt < max_retries →
    (∀ j, attempt ≤ j → j < max_retries → resp j = .otherError) →
    stockLoop resp max_retries attempt fuel =
      ⟨(0, 0, 0), max_retries,
       (List.range' attempt (max_retries - 1 - attempt)).map (2 ^ ·)⟩ := by
  intro fuel
  induction fuel with
  | zero => intro attempt hfuel hlt _; omega
  | succ f ih =>
    intro attempt hfuel hlt hresp
    rw [stockLoop]
    rw [hresp attempt le_rfl hlt]
    by_cases hretry : attempt < max_retries - 1
    · rw [if_pos hretry]
      rw [ih (attempt + 1) (by omega) (by omega)
        (fun j hj hj' => hresp j (by omega) hj')]
      have hrange : max_retries - 1 - attempt = (max_retries - 1 - (attempt + 1)) + 1 := by
        omega
      rw [hrange, List.range'_succ, List.map_cons]
    · rw [if_neg hretry]
      have h1 : attempt + 1 = max_retries := by omega
      have h2 : max_retries - 1 - attempt = 0 := by omega
      rw [h1, h2, List.range', List.map_nil]

/-- C7: the stock fetch retries only transient errors, up to `maxRetries`
attempts with backoff `2^attempt` seconds between attempts, returning the
zero-sentinel quote `(0.0, 0.0, 0)` on exhaustion; a malformed-data
(`KeyError`) response and an empty 5-day history window each return the
zero-sentinel quote immediately, after a single collaborator call and
with no backoff sleep. -/
theorem C7_get_stock_data_retry_policy (resp : ℕ → StockResp) (max_retries : ℕ)
    (hmr : 1 ≤ max_retries) :
    ((∀ a, a < max_retries → resp a = .otherError) →
      get_stock_data resp max_retries =
        ⟨(0, 0, 0), max_retries, (List.range (max_retries - 1)).map (2 ^ ·)⟩) ∧
    (resp 0 = .keyError → get_stock_data resp max_retries = ⟨(0, 0, 0), 1, []⟩) ∧
    (resp 0 = .history [] → get_stock_data resp max_retries = ⟨(0, 0, 0), 1, []⟩) ∧
    (∀ attempt fuel, resp attempt ≠ .otherError →
      (stockLoop resp max_retries attempt (fuel + 1)).calls = attempt + 1 ∧
      (stockLoop resp max_retries attempt (fuel + 1)).sleeps = []) := by
  obtain ⟨f, hf⟩ : ∃ f, max_retries = f + 1 := ⟨max_retries - 1, by omega⟩
  refine ⟨?_, ?_, ?_, ?_⟩
  · intro hresp
    rw [get_stock_data,
      stockLoop_exhaust resp max_retries max_retries 0 (by omega) (by omega)
        (fun j _ hj' => hresp j hj'),
      List.range_eq_range', Nat.sub_zero]
  · intro h0
    rw [get_stock_data, hf]
    simp only [stockLoop, h0]
  · intro h0
    rw [get_stock_data, hf]
    simp only [stockLoop, h0]
    rfl
  · intro attempt fuel hne
    cases hresp : resp attempt with
    | history bars =>
      simp only [stockLoop, hresp]
      by_cases hb : bars.isEmpty
      · simp [hb]
      · simp [hb]
    | keyError =>
      simp [stockLoop, hresp]
    | otherError => exact absurd hresp hne

/-- Witness for C7: `max_retries = 3` with an all-transient oracle
(three calls, sleeps 1 s and 2 s), a malformed-data oracle, an
empty-history oracle, and a non-transient response at attempt 0. -/
theorem C7_witness :
    get_stock_data (fun _ => .otherError) 3 =
      ⟨(0, 0, 0), 3, (List.range 2).map (2 ^ ·)⟩ ∧
    get_stock_data (fun _ => .keyError) 3 = ⟨(0, 0, 0), 1, []⟩ ∧
    get_stock_data (fun _ => .history []) 3 = ⟨(0, 0, 0), 1, []⟩ ∧
    (stockLoop (fun _ => .keyError) 3 0 3).calls = 1 :=
  ⟨(C7_get_stock_data_retry_policy (fun _ => .otherError) 3 (by decide)).1 (fun _ _ => rfl),
   (C7_get_stock_data_retry_policy (fun _ => .keyError) 3 (by decide)).2.1 rfl,
   (C7_get_stock_data_retry_policy (fun _ => .history []) 3 (by decide)).2.2.1 rfl,
   ((C7_get_stock_data_retry_policy (fun _ => .keyError) 3 (by decide)).2.2.2 0 2
     (by decide)).1⟩

/-- C8: on a successful fetch whose history has at least two bars the
returned percent change is `(latest_close - previous_close) /
previous_close * 100` rounded to 2 decimal places, where `latest_close`
is the (rounded) returned close price; with exactly one bar the percent
change is `0.0`; and `close = 110`, `previous = 100` gives exactly `10`. -/
theorem C8_percent_change_formula (resp : ℕ → StockResp) (max_retries : ℕ)
    (hmr : 1 ≤ max_retries) :
    (∀ pre b2 b1, resp 0 = .history (pre ++ [b2, b1]) →
      (get_stock_data resp max_retries).quote =
        (round2 b1.close, round2 ((round2 b1.close - b2.close) / b2.close * 100),
         b1.volume)) ∧
    (∀ b1, resp 0 = .history [b1] →
      (get_stock_data resp max_retries).quote = (round2 b1.close, 0, b1.volume)) ∧
    (∀ pre b2 b1, resp 0 = .history (pre ++ [b2, b1]) → b2.close = 100 → b1.close = 110 →
      (get_stock_data resp max_retries).quote.2.1 = 10) := by
  obtain ⟨f, hf⟩ : ∃ f, max_retries = f + 1 := ⟨max_retries - 1, by omega⟩
  have hmain : ∀ pre b2 b1, resp 0 = .history (pre ++ [b2, b1]) →
      (get_stock_data resp max_retries).quote =
        (round2 b1.close, round2 ((round2 b1.close - b2.close) / b2.close * 100),
         b1.volume) := by
    intro pre b2 b1 h0
    have hne : (pre ++ [b2, b1]).isEmpty = false := by
      rw [List.isEmpty_eq_false_iff_exists_mem]
      exact ⟨b2, by simp⟩
    have hlast : (pre ++ [b2, b1]).getLastD ⟨0, 0⟩ = b1 := by
      have : pre ++ [b2, b1] = (pre ++ [b2]) ++ [b1] := by simp
      rw [this, List.getLastD_concat]
    have hlen : (pre ++ [b2, b1]).length = pre.length + 2 := by simp
    have hprev : (pre ++ [b2, b1]).getD (pre.length + 2 - 2) ⟨0, 0⟩ = b2 := by
      rw [Nat.add_sub_cancel, List.getD_eq_getElem?_getD,
        List.getElem?_append_right (le_refl pre.length)]
      simp
    rw [get_stock_data, hf]
    simp only [stockLoop, h0, hne, Bool.false_eq_true, if_false, hlast, hlen, hprev]
    rw [if_pos (by omega : 2 ≤ pre.length + 2)]
  refine ⟨hmain, ?_, ?_⟩
  · intro b1 h0
    rw [get_stock_data, hf]
    simp only [stockLoop, h0]
    rfl
  · intro pre b2 b1 h0 h100 h110
    rw [hmain pre b2 b1 h0, h110, h100]
    have h1 : round2 (110 : ℚ) = 110 := by
      have : ((110 : ℚ)) = ((110 : ℤ) : ℚ) := by norm_num
      rw [this, round2_intCast]
    rw [h1]
    have h2 : ((110 : ℚ) - 100) / 100 * 100 = ((10 : ℤ) : ℚ) := by norm_num
    rw [h2, round2_intCast]
    norm_num

/-- Witness for C8: a two-bar history realising the spec's
`close = 110, previous = 100 → 10.0` example, and a one-bar history. -/
theorem C8_witness :
    (get_stock_data (fun _ => .history [⟨100, 7⟩, ⟨110, 20⟩]) 3).quote =
      (round2 (110 : ℚ), round2 ((round2 (110 : ℚ) - 100) / 100 * 100), 20) ∧
    (get_stock_data (fun _ => .history [⟨100, 7⟩, ⟨110, 20⟩]) 3).quote.2.1 = 10 ∧
    (get_stock_data (fun _ => .history [⟨50, 5⟩]) 3).quote = (round2 (50 : ℚ), 0, 5) :=
  ⟨(C8_percent_change_formula (fun _ => .history [⟨100, 7⟩, ⟨110, 20⟩]) 3 (by decide)).1
      [] ⟨100, 7⟩ ⟨110, 20⟩ rfl,
   (C8_percent_change_formula (fun _ => .history [⟨100, 7⟩, ⟨110, 20⟩]) 3 (by decide)).2.2
      [] ⟨100, 7⟩ ⟨110, 20⟩ rfl rfl rfl,
   (C8_percent_change_formula (fun _ => .history [⟨50, 5⟩]) 3 (by decide)).2.1 ⟨50, 5⟩ rfl⟩

lemma processArticles_length_le (ma : ℕ) (arts : List RawArticle) :
    (processArticles ma arts).length ≤ ma := by
  have h1 : (processArticles ma arts).length ≤ (arts.take ma).length :=
    List.length_filterMap_le _ _
  have h2 : (arts.take ma).length ≤ ma := by
    rw [List.length_take]
    exact min_le_left _ _
  omega

lemma processArticles_mem {ma : ℕ} {arts : List RawArticle} {a : ProcArticle}
    (h : a ∈ processArticles ma arts) :
    ∃ raw ∈ arts, raw.title ≠ "" ∧ raw.title ≠ "[Removed]" ∧
      a = ⟨raw.title, raw.description, raw.content, mkFullText raw⟩ := by
  simp only [processArticles, List.mem_filterMap] at h
  obtain ⟨raw, hraw, hsome⟩ := h
  by_cases hg : raw.title ≠ "" ∧ raw.title ≠ "[Removed]"
  · rw [if_pos hg] at hsome
    exact ⟨raw, List.mem_of_mem_take hraw, hg.1, hg.2, (Option.some.inj hsome).symm⟩
  · rw [if_neg hg] at hsome
    cases hsome

/-- A `found` outcome of the attempt loop always carries the processed
usable articles of some `ok` collaborator response, and is non-empty. -/
lemma attemptLoop_found {resp : ℕ → NewsResp} {ma mr : ℕ} :
    ∀ {fuel k attempt l kf},
    attemptLoop resp ma mr k attempt fuel = (.found l, kf) →
    ∃ k' arts, resp k' = .ok arts ∧ l = processArticles ma arts ∧ l ≠ [] := by
  intro fuel
  induction fuel with
  | zero =>
    intro k attempt l kf h
    simp [attemptLoop] at h
  | succ f ih =>
    intro k attempt l kf h
    rw [attemptLoop] at h
    cases hresp : resp k with
    | ok arts =>
      rw [hresp] at h
      simp only at h
      by_cases hae : arts.isEmpty
      · rw [if_pos hae] at h; cases h
      · rw [if_neg hae] at h
        by_cases hpe : (processArticles ma arts).isEmpty
        · rw [if_pos hpe] at h; cases h
        · rw [if_neg hpe] at h
          obtain ⟨h1, -⟩ := Prod.mk.injEq .. ▸ h
          cases h1
          exact ⟨k, arts, hresp, rfl, by simpa [List.isEmpty_iff] using hpe⟩
    | invalid => rw [hresp] at h; cases h
    | rateLimited => rw [hresp] at h; cases h
    | apiKeyInvalid => rw [hresp] at h; cases h
    | otherError =>
      rw [hresp] at h
      simp only at h
      by_cases hret : attempt < mr - 1
      · rw [if_pos hret] at h
        exact ih h
      · rw [if_neg hret] at h; cases h

/-- Every list returned by the cascade is empty or the processed usable
articles of some `ok` collaborator response. -/
lemma tierLoop_ok {resp : ℕ → NewsResp} {ma mr : ℕ} :
    ∀ {combos : List (String × Bool)} {k l kf},
    tierLoop resp ma mr k combos = .ok (l, kf) →
    l = [] ∨ ∃ k' arts, resp k' = .ok arts ∧ l = processArticles ma arts := by
  intro combos
  induction combos with
  | nil =>
    intro k l kf h
    rw [tierLoop] at h
    obtain ⟨h1, -⟩ := Prod.mk.injEq .. ▸ Except.ok.inj h
    exact Or.inl h1.symm
  | cons c rest ih =>
    intro k l kf h
    rw [tierLoop] at h
    cases hal : attemptLoop resp ma mr k 0 mr with
    | mk outcome k' =>
      rw [hal] at h
      cases outcome with
      | found al =>
        obtain ⟨h1, -⟩ := Prod.mk.injEq .. ▸ Except.ok.inj h
        obtain ⟨k'', arts, hresp, hform, -⟩ := attemptLoop_found hal
        exact Or.inr ⟨k'', arts, hresp, h1 ▸ hform⟩
      | noResult => exact ih h
      | rateLim =>
        obtain ⟨h1, -⟩ := Prod.mk.injEq .. ▸ Except.ok.inj h
        exact Or.inl h1.symm
      | credErr => cases h

/-- C5: the news-fetch cascade evaluates (query, tier) combinations in
order — for each query the domain-restricted tier strictly before the
unrestricted tier — returning the usable articles (title non-empty and
not `"[Removed]"`, capped at `maxArticles`) of the first combination that
yields at least one usable article and skipping all later combinations;
a combination with zero usable articles falls through to the next; an
exhausted cascade returns the empty sequence; and `"[Removed]"` never
appears in a returned sequence. -/
theorem C5_news_cascade (resp : ℕ → NewsResp) (max_articles max_retries : ℕ) :
    (∀ q qs, newsCombos (q :: qs) = (q, true) :: (q, false) :: newsCombos qs) ∧
    (∀ symbol company_name, get_news_articles resp symbol company_name max_articles
        max_retries =
      tierLoop resp max_articles max_retries 0
        (newsCombos (get_smart_search_queries company_name symbol))) ∧
    (∀ k c rest l kf,
      attemptLoop resp max_articles max_retries k 0 max_retries = (.found l, kf) →
      tierLoop resp max_articles max_retries k (c :: rest) = .ok (l, kf)) ∧
    (∀ k c rest kf,
      attemptLoop resp max_articles max_retries k 0 max_retries = (.noResult, kf) →
      tierLoop resp max_articles max_retries k (c :: rest) =
        tierLoop resp max_articles max_retries kf rest) ∧
    (∀ k, tierLoop resp max_articles max_retries k [] = .ok ([], k)) ∧
    (∀ k attempt fuel arts l kf, resp k = .ok arts →
      attemptLoop resp max_articles max_retries k attempt (fuel + 1) = (.found l, kf) →
      l = processArticles max_articles arts) ∧
    (∀ symbol company_name l kf,
      get_news_articles resp symbol company_name max_articles max_retries = .ok (l, kf) →
      l.length ≤ max_articles ∧ ∀ a ∈ l, a.title ≠ "" ∧ a.title ≠ "[Removed]") := by
  refine ⟨fun q qs => rfl, fun symbol company_name => rfl, ?_, ?_, fun k => rfl, ?_, ?_⟩
  · intro k c rest l kf h
    rw [tierLoop, h]
  · intro k c rest kf h
    rw [tierLoop, h]
  · intro k attempt fuel arts l kf hresp h
    rw [attemptLoop, hresp] at h
    simp only at h
    by_cases hae : arts.isEmpty
    · rw [if_pos hae] at h; cases h
    · rw [if_neg hae] at h
      by_cases hpe : (processArticles max_articles arts).isEmpty
      · rw [if_pos hpe] at h; cases h
      · rw [if_neg hpe] at h
        obtain ⟨h1, -⟩ := Prod.mk.injEq .. ▸ h
        exact (TierOutcome.found.inj h1).symm
  · intro symbol company_name l kf h
    rcases tierLoop_ok h with hnil | ⟨k', arts, -, hform⟩
    · subst hnil
      exact ⟨by simp, by simp⟩
    · subst hform
      refine ⟨processArticles_length_le _ _, fun a ha => ?_⟩
      obtain ⟨raw, -, ht1, ht2, hform⟩ := processArticles_mem ha
      subst hform
      exact ⟨ht1, ht2⟩

/-- Witness for C5: a first-combination hit, a fall-through to the second
combination, and a fetch whose response contains a `"[Removed]"` article
that is filtered from the returned list. -/
theorem C5_witness :
    tierLoop (fun _ => .ok [⟨"Good", "d", "c"⟩]) 10 3 0 [("q", true), ("q", false)] =
      .ok ([⟨"Good", "d", "c", mkFullText ⟨"Good", "d", "c"⟩⟩], 1) ∧
    tierLoop (fun _ => .invalid) 10 3 0 [("q", true), ("q", false)] =
      tierLoop (fun _ => .invalid) 10 3 1 [("q", false)] ∧
    ([(⟨"Good", "d", "c", mkFullText ⟨"Good", "d", "c"⟩⟩ : ProcArticle)] : List ProcArticle) =
      processArticles 10 [⟨"[Removed]", "x", "y"⟩, ⟨"Good", "d", "c"⟩] ∧
    ((([⟨"Good", "d", "c", mkFullText ⟨"Good", "d", "c"⟩⟩] : List ProcArticle)).length ≤ 10 ∧
      ∀ a ∈ ([⟨"Good", "d", "c", mkFullText ⟨"Good", "d", "c"⟩⟩] : List ProcArticle),
        a.title ≠ "" ∧ a.title ≠ "[Removed]") :=
  ⟨(C5_news_cascade (fun _ => .ok [⟨"Good", "d", "c"⟩]) 10 3).2.2.1 0 ("q", true)
      [("q", false)] _ 1 rfl,
   (C5_news_cascade (fun _ => .invalid) 10 3).2.2.2.1 0 ("q", true) [("q", false)] 1 rfl,
   (C5_news_cascade (fun _ => .ok [⟨"[Removed]", "x", "y"⟩, ⟨"Good", "d", "c"⟩]) 10 3).2.2.2.2.2.1
      0 0 2 [⟨"[Removed]", "x", "y"⟩, ⟨"Good", "d", "c"⟩] _ 1 rfl rfl,
   (C5_news_cascade (fun _ => .ok [⟨"[Removed]", "x", "y"⟩, ⟨"Good", "d", "c"⟩]) 10 3).2.2.2.2.2.2
      "SYM" "Name" _ 1 rfl⟩

/-- C6: a rate-limited response during any attempt of any (query, tier)
combination ends the attempt loop at once (one call, no retry) and makes
the whole fetch return the empty sequence without attempting any further
queries or tiers; in the pipeline an empty news result is recorded as a
news failure with the placeholder headline row, and processing continues
with the subsequent vendors. -/
theorem C6_rate_limit_behaviour (resp : ℕ → NewsResp) (max_articles max_retries : ℕ) :
    (∀ k attempt fuel, resp k = .rateLimited →
      attemptLoop resp max_articles max_retries k attempt (fuel + 1) = (.rateLim, k + 1)) ∧
    (∀ k c rest kf,
      attemptLoop resp max_articles max_retries k 0 max_retries = (.rateLim, kf) →
      tierLoop resp max_articles max_retries k (c :: rest) = .ok ([], kf)) ∧
    (∀ (compound : String → ℚ) idx (st : RunState) (v : VendorInput)
        (rest : List VendorInput) kf,
      pyUpper (pyStrip v.symbol) ≠ "" →
      get_news_articles v.newsResp (pyUpper (pyStrip v.symbol)) (pyStrip v.companyname) 10 3
        = .ok ([], kf) →
      (processVendor compound idx st v).stats.news_failures =
        st.stats.news_failures + 1 ∧
      (processVendor compound idx st v).headline_data =
        st.headline_data ++ [⟨pyUpper (pyStrip v.symbol), "N/A", "N/A"⟩] ∧
      processLoop compound idx st (v :: rest) =
        processLoop compound (idx + 1) (processVendor compound idx st v) rest) := by
  refine ⟨?_, ?_, ?_⟩
  · intro k attempt fuel hk
    rw [attemptLoop, hk]
  · intro k c rest kf h
    rw [tierLoop, h]
  · intro compound idx st v rest kf hsym hnews
    refine ⟨?_, ?_, rfl⟩
    · rw [processVendor, if_neg hsym, hnews]
      simp only [List.isEmpty_nil, if_true]
      split <;> rfl
    · rw [processVendor, if_neg hsym, hnews]
      simp only [List.isEmpty_nil, if_true]

/-- Witness for C6: an always-rate-limited oracle (the fetch makes exactly
one search call and returns empty), and a vendor whose news fetch
rate-limits while a second vendor follows. -/
theorem C6_witness :
    attemptLoop (fun _ => NewsResp.rateLimited) 10 3 0 0 3 = (.rateLim, 1) ∧
    tierLoop (fun _ => NewsResp.rateLimited) 10 3 0 [("q", true), ("q", false)] =
      .ok ([], 1) ∧
    ((processVendor (fun _ => 0) 1 (initState 2)
        ⟨"AAA", "Alpha", fun _ => .keyError, fun _ => .rateLimited⟩).stats.news_failures =
      (initState 2).stats.news_failures + 1 ∧
     (processVendor (fun _ => 0) 1 (initState 2)
        ⟨"AAA", "Alpha", fun _ => .keyError, fun _ => .rateLimited⟩).headline_data =
      (initState 2).headline_data ++
        [⟨pyUpper (pyStrip "AAA"), "N/A", "N/A"⟩] ∧
     processLoop (fun _ => 0) 1 (initState 2)
        (⟨"AAA", "Alpha", fun _ => .keyError, fun _ => .rateLimited⟩ ::
         [⟨"BBB", "Beta", fun _ => .keyError, fun _ => .invalid⟩]) =
       processLoop (fun _ => 0) 2
         (processVendor (fun _ => 0) 1 (initState 2)
           ⟨"AAA", "Alpha", fun _ => .keyError, fun _ => .rateLimited⟩)
         [⟨"BBB", "Beta", fun _ => .keyError, fun _ => .invalid⟩]) :=
  ⟨(C6_rate_limit_behaviour (fun _ => .rateLimited) 10 3).1 0 0 2 rfl,
   (C6_rate_limit_behaviour (fun _ => .rateLimited) 10 3).2.1 0 ("q", true) [("q", false)]
      1 rfl,
   (C6_rate_limit_behaviour (fun _ => .rateLimited) 10 3).2.2 (fun _ => 0) 1 (initState 2)
      ⟨"AAA", "Alpha", fun _ => .keyError, fun _ => .rateLimited⟩
      [⟨"BBB", "Beta", fun _ => .keyError, fun _ => .invalid⟩] 1 (by decide) rfl⟩

/-- If every history bar the market-data collaborator can return has a
nonnegative close, the fetched close price is nonnegative. -/
lemma stockLoop_close_nonneg (resp : ℕ → StockResp) (mr : ℕ)
    (hresp : ∀ a bars, resp a = .history bars → ∀ b ∈ bars, 0 ≤ b.close) :
    ∀ fuel attempt, 0 ≤ (stockLoop resp mr attempt fuel).quote.1 := by
  intro fuel
  induction fuel with
  | zero => intro attempt; rw [stockLoop]
  | succ f ih =>
    intro attempt
    rw [stockLoop]
    cases hr : resp attempt with
    | history bars =>
      simp only
      by_cases hb : bars.isEmpty
      · rw [if_pos hb]
      · rw [if_neg hb]
        simp only
        have hmem := List.getLastD_mem_cons bars (⟨0, 0⟩ : Bar)
        rcases List.mem_cons.mp hmem with h | h
        · rw [h]
          exact round2_nonneg (le_refl 0)
        · exact round2_nonneg (hresp attempt bars hr _ h)
    | keyError => exact le_refl 0
    | otherError =>
      simp only
      by_cases hret : attempt < mr - 1
      · rw [if_pos hret]; exact ih (attempt + 1)
      · rw [if_neg hret]

/-- How the per-vendor stock stage updates the two stock counters:
success iff the fetched close price is positive. -/
lemma processVendor_stock_counters (compound : String → ℚ) (idx : ℕ)
    (st : RunState) (v : VendorInput) (hsym : pyUpper (pyStrip v.symbol) ≠ "") :
    ((get_stock_data v.stockResp 3).quote.1 > 0 →
      (processVendor compound idx st v).stats.stock_success = st.stats.stock_success + 1 ∧
      (processVendor compound idx st v).stats.stock_failures = st.stats.stock_failures) ∧
    (¬ (get_stock_data v.stockResp 3).quote.1 > 0 →
      (processVendor compound idx st v).stats.stock_success = st.stats.stock_success ∧
      (processVendor compound idx st v).stats.stock_failures =
        st.stats.stock_failures + 1) := by
  constructor
  · intro hq
    rw [processVendor, if_neg hsym]
    simp only [if_pos hq]
    split
    · exact ⟨rfl, rfl⟩
    · split
      · exact ⟨rfl, rfl⟩
      · exact ⟨rfl, rfl⟩
  · intro hq
    rw [processVendor, if_neg hsym]
    simp only [if_neg hq]
    split
    · exact ⟨rfl, rfl⟩
    · split
      · exact ⟨rfl, rfl⟩
      · exact ⟨rfl, rfl⟩

/-- C9: a vendor with a non-empty normalized symbol is counted as a stock
failure if and only if the fetched quote's close price is zero (and as a
stock success otherwise); exactly one of the two counters increments. -/
theorem C9_stock_stats_iff_zero_close (compound : String → ℚ) (idx : ℕ)
    (st : RunState) (v : VendorInput)
    (hsym : pyUpper (pyStrip v.symbol) ≠ "")
    (hbars : ∀ a bars, v.stockResp a = .history bars → ∀ b ∈ bars, 0 ≤ b.close) :
    ((processVendor compound idx st v).stats.stock_failures =
        st.stats.stock_failures + 1 ↔ (get_stock_data v.stockResp 3).quote.1 = 0) ∧
    ((processVendor compound idx st v).stats.stock_success =
        st.stats.stock_success + 1 ↔ (get_stock_data v.stockResp 3).quote.1 ≠ 0) ∧
    (processVendor compound idx st v).stats.stock_success +
        (processVendor compound idx st v).stats.stock_failures =
      st.stats.stock_success + st.stats.stock_failures + 1 := by
  have hq0 : 0 ≤ (get_stock_data v.stockResp 3).quote.1 :=
    stockLoop_close_nonneg v.stockResp 3 hbars 3 0
  have hcount := processVendor_stock_counters compound idx st v hsym
  by_cases hq : (get_stock_data v.stockResp 3).quote.1 > 0
  · obtain ⟨hs, hf⟩ := hcount.1 hq
    refine ⟨?_, ?_, ?_⟩
    · rw [hf]
      constructor
      · intro h; omega
      · intro h; rw [h] at hq; exact absurd hq (lt_irrefl 0)
    · rw [hs]
      exact ⟨fun _ => ne_of_gt hq, fun _ => rfl⟩
    · rw [hs, hf]; omega
  · obtain ⟨hs, hf⟩ := hcount.2 hq
    have hz : (get_stock_data v.stockResp 3).quote.1 = 0 := le_antisymm (not_lt.mp hq) hq0
    refine ⟨?_, ?_, ?_⟩
    · rw [hf]
      exact ⟨fun _ => hz, fun _ => rfl⟩
    · rw [hs]
      constructor
      · intro h; omega
      · intro h; exact absurd hz h
    · rw [hs, hf]; omega

/-- Witness for C9: a vendor whose stock fetch fails with malformed data
(zero-sentinel quote, counted as a stock failure). -/
theorem C9_witness :
    ((processVendor (fun _ => 0) 1 (initState 1)
        ⟨"AAA", "Alpha", fun _ => .keyError, fun _ => .invalid⟩).stats.stock_failures =
      (initState 1).stats.stock_failures + 1 ↔
        (get_stock_data (fun _ => StockResp.keyError) 3).quote.1 = 0) ∧
    ((processVendor (fun _ => 0) 1 (initState 1)
        ⟨"AAA", "Alpha", fun _ => .keyError, fun _ => .invalid⟩).stats.stock_success =
      (initState 1).stats.stock_success + 1 ↔
        (get_stock_data (fun _ => StockResp.keyError) 3).quote.1 ≠ 0) ∧
    (processVendor (fun _ => 0) 1 (initState 1)
        ⟨"AAA", "Alpha", fun _ => .keyError, fun _ => .invalid⟩).stats.stock_success +
      (processVendor (fun _ => 0) 1 (initState 1)
        ⟨"AAA", "Alpha", fun _ => .keyError, fun _ => .invalid⟩).stats.stock_failures =
      (initState 1).stats.stock_success + (initState 1).stats.stock_failures + 1 :=
  C9_stock_stats_iff_zero_close (fun _ => 0) 1 (initState 1)
    ⟨"AAA", "Alpha", fun _ => .keyError, fun _ => .invalid⟩ (by decide)
    (fun _ bars h => StockResp.noConfusion h)

lemma mem_dropWhile_of_not {α : Type} {p : α → Bool} {c : α} :
    ∀ {l : List α}, c ∈ l → ¬ p c = true → c ∈ l.dropWhile p := by
  intro l
  induction l with
  | nil => intro h _; cases h
  | cons x xs ih =>
    intro hc hp
    by_cases hx : p x = true
    · rw [List.dropWhile_cons_of_pos hx]
      rcases List.mem_cons.mp hc with rfl | hmem
      · exact absurd hx hp
      · exact ih hmem hp
    · rw [List.dropWhile_cons_of_neg hx]
      exact hc

lemma mem_pyStrip {c : Char} {s : String} (hc : c ∈ s.data)
    (hw : ¬ c.isWhitespace = true) : c ∈ (pyStrip s).data := by
  simp only [pyStrip]
  rw [List.mem_reverse]
  exact mem_dropWhile_of_not (List.mem_reverse.mpr (mem_dropWhile_of_not hc hw)) hw

/-- The derived `full_text` always contains the literal `'.'` inserted
between title and description, so it is never empty and never the
sentinel `"N/A"`. -/
lemma mkFullText_props (raw : RawArticle) :
    mkFullText raw ≠ "" ∧ mkFullText raw ≠ "N/A" := by
  have hdot : '.' ∈ (mkFullText raw).data := by
    apply mem_pyStrip
    · simp only [String.data_append]
      have : '.' ∈ (". " : String).data := by decide
      simp only [List.mem_append]
      tauto
    · decide
  constructor
  · intro h
    rw [h] at hdot
    cases hdot
  · intro h
    rw [h] at hdot
    have : ¬ '.' ∈ ("N/A" : String).data := by decide
    exact this hdot

lemma analyze_sentiment_vader_mem_three {text : String} (h1 : text ≠ "")
    (h2 : text ≠ "N/A") (compound : String → ℚ) :
    analyze_sentiment_vader text compound ∈
      (["bullish", "bearish", "neutral"] : List String) := by
  rw [analyze_sentiment_vader, if_neg (by tauto)]
  split
  · simp
  · split <;> simp

lemma get_max_sentiment_mem_three {l : List String} (hne : l ≠ [])
    (hdom : ∀ s ∈ l, s ∈ (["bullish", "bearish", "neutral"] : List String)) :
    get_max_sentiment l ∈ (["bullish", "bearish", "neutral"] : List String) := by
  obtain ⟨s, hs⟩ := List.exists_mem_of_ne_nil l hne
  have hsne : s ≠ "N/A" := by
    have := hdom s hs
    simp only [List.mem_cons, List.not_mem_nil, or_false] at this
    rcases this with rfl | rfl | rfl <;> decide
  have hcond : (l.isEmpty || l.all (fun s => s = "N/A")) = false := by
    rw [Bool.or_eq_false_iff]
    constructor
    · rw [Bool.eq_false_iff, Ne, List.isEmpty_iff]
      exact hne
    · rw [Bool.eq_false_iff]
      intro h
      rw [List.all_eq_true] at h
      exact hsne (by simpa using h s hs)
  have hvalidne : (l.filter (fun x => x ≠ "N/A")).isEmpty = false := by
    rw [Bool.eq_false_iff, Ne, List.isEmpty_iff, List.eq_nil_iff_forall_not_mem]
    push_neg
    exact ⟨s, List.mem_filter.mpr ⟨hs, by simpa using hsne⟩⟩
  rw [get_max_sentiment, hcond]
  simp only [Bool.false_eq_true, if_false, hvalidne]
  split
  · simp
  · split <;> simp

/-- C10: every article returned by the news fetch has a non-empty,
non-sentinel `full_text` (it always contains the inserted `'.'`), so each
per-article classification is in {bullish, bearish, neutral} — never
`"N/A"` — and a vendor with at least one article gets an aggregated
sentiment that is likewise never `"N/A"`. -/
theorem C10_sentiment_never_na (compound : String → ℚ) :
    (∀ (resp : ℕ → NewsResp) symbol company_name ma mr l kf,
      get_news_articles resp symbol company_name ma mr = .ok (l, kf) →
      ∀ a ∈ l, a.full_text ≠ "" ∧ a.full_text ≠ "N/A" ∧
        analyze_sentiment_vader a.full_text compound ∈
          (["bullish", "bearish", "neutral"] : List String)) ∧
    (∀ idx (st : RunState) (v : VendorInput) articles kf,
      pyUpper (pyStrip v.symbol) ≠ "" →
      get_news_articles v.newsResp (pyUpper (pyStrip v.symbol)) (pyStrip v.companyname) 10 3
        = .ok (articles, kf) →
      articles ≠ [] →
      ∃ row : StockRow,
        (processVendor compound idx st v).stock_data = st.stock_data ++ [row] ∧
        row.sentiment ∈ (["bullish", "bearish", "neutral"] : List String) ∧
        row.sentiment ≠ "N/A") := by
  have hfetch : ∀ (resp : ℕ → NewsResp) symbol company_name ma mr
      (l : List ProcArticle) kf,
      get_news_articles resp symbol company_name ma mr = .ok (l, kf) →
      ∀ a ∈ l, a.full_text ≠ "" ∧ a.full_text ≠ "N/A" ∧
        analyze_sentiment_vader a.full_text compound ∈
          (["bullish", "bearish", "neutral"] : List String) := by
    intro resp symbol company_name ma mr l kf h a ha
    rcases tierLoop_ok h with hnil | ⟨k', arts, -, hform⟩
    · subst hnil; cases ha
    · subst hform
      obtain ⟨raw, -, -, -, hform⟩ := processArticles_mem ha
      subst hform
      obtain ⟨hft1, hft2⟩ := mkFullText_props raw
      exact ⟨hft1, hft2, analyze_sentiment_vader_mem_three hft1 hft2 compound⟩
  refine ⟨hfetch, ?_⟩
  intro idx st v articles kf hsym hnews hne
  have hsent : get_max_sentiment
      (articles.map (fun a => analyze_sentiment_vader a.full_text compound)) ∈
      (["bullish", "bearish", "neutral"] : List String) := by
    apply get_max_sentiment_mem_three
    · rw [Ne, List.map_eq_nil_iff]
      exact hne
    · intro s hsmem
      obtain ⟨a, ha, hform⟩ := List.mem_map.mp hsmem
      obtain ⟨-, -, h3⟩ := hfetch v.newsResp (pyUpper (pyStrip v.symbol))
        (pyStrip v.companyname) 10 3 articles kf hnews a ha
      exact hform ▸ h3
  have hna : get_max_sentiment
      (articles.map (fun a => analyze_sentiment_vader a.full_text compound)) ≠ "N/A" := by
    simp only [List.mem_cons, List.not_mem_nil, or_false] at hsent
    rcases hsent with h | h | h <;> rw [h] <;> decide
  have hae : articles.isEmpty = false := by simpa [List.isEmpty_iff] using hne
  rw [processVendor, if_neg hsym, hnews]
  simp only [hae, Bool.false_eq_true, if_false]
  exact ⟨_, rfl, hsent, hna⟩

/-- Witness for C10: a fetch returning one usable article; the vendor's
row carries a real sentiment label. -/
theorem C10_witness :
    (∀ a ∈ ([⟨"Good", "d", "c", mkFullText ⟨"Good", "d", "c"⟩⟩] : List ProcArticle),
      a.full_text ≠ "" ∧ a.full_text ≠ "N/A" ∧
        analyze_sentiment_vader a.full_text (fun _ => 0) ∈
          (["bullish", "bearish", "neutral"] : List String)) ∧
    (∃ row : StockRow,
      (processVendor (fun _ => 0) 1 (initState 1)
        ⟨"AAA", "Alpha", fun _ => .keyError,
          fun _ => .ok [⟨"Good", "d", "c"⟩]⟩).stock_data =
        (initState 1).stock_data ++ [row] ∧
      row.sentiment ∈ (["bullish", "bearish", "neutral"] : List String) ∧
      row.sentiment ≠ "N/A") :=
  ⟨(C10_sentiment_never_na (fun _ => 0)).1 (fun _ => .ok [⟨"Good", "d", "c"⟩])
      "AAA" "Alpha" 10 3 _ 1 rfl,
   (C10_sentiment_never_na (fun _ => 0)).2 1 (initState 1)
      ⟨"AAA", "Alpha", fun _ => .keyError, fun _ => .ok [⟨"Good", "d", "c"⟩]⟩
      [⟨"Good", "d", "c", mkFullText ⟨"Good", "d", "c"⟩⟩] 1 (by decide) rfl (by decide)⟩

/-- C2 counterexample: a vendor record whose symbol is empty is skipped by
the validation step (lines 583-585) and produces no stock row and no
headline row at all, contradicting the claim for "every vendor record in
the input list". -/
theorem C2_counterexample :
    (process_vendors (fun _ => 0)
      [⟨"", "NoSym Inc.", fun _ => .otherError, fun _ => .invalid⟩]).stock_data = [] ∧
    (process_vendors (fun _ => 0)
      [⟨"", "NoSym Inc.", fun _ => .otherError, fun _ => .invalid⟩]).headline_data = [] := by
  decide

/-- C2 (amended): every vendor whose normalized symbol is non-empty and
whose news fetch does not raise the fatal invalid-credential error
appends exactly one stock-report row and at least one headline-report row
(the placeholder `N/A` row when no articles are found); no such vendor's
rows are dropped. -/
theorem C2_amended_rows_per_vendor (compound : String → ℚ) (idx : ℕ)
    (st : RunState) (v : VendorInput)
    (hsym : pyUpper (pyStrip v.symbol) ≠ "")
    (hok : ∀ e, get_news_articles v.newsResp (pyUpper (pyStrip v.symbol))
      (pyStrip v.companyname) 10 3 ≠ .error e) :
    (∃ row, (processVendor compound idx st v).stock_data = st.stock_data ++ [row]) ∧
    (∃ hrows, hrows ≠ [] ∧
      (processVendor compound idx st v).headline_data = st.headline_data ++ hrows) ∧
    (∀ kf, get_news_articles v.newsResp (pyUpper (pyStrip v.symbol))
        (pyStrip v.companyname) 10 3 = .ok ([], kf) →
      (processVendor compound idx st v).headline_data =
        st.headline_data ++ [⟨pyUpper (pyStrip v.symbol), "N/A", "N/A"⟩]) := by
  cases hnews : get_news_articles v.newsResp (pyUpper (pyStrip v.symbol))
      (pyStrip v.companyname) 10 3 with
  | error e => exact absurd hnews (hok e)
  | ok p =>
    obtain ⟨articles, kf⟩ := p
    by_cases hae : articles.isEmpty
    · have hanil : articles = [] := List.isEmpty_iff.mp hae
      subst hanil
      refine ⟨?_, ?_, ?_⟩
      · rw [processVendor, if_neg hsym, hnews]
        simp only [List.isEmpty_nil, if_true]
        exact ⟨_, rfl⟩
      · rw [processVendor, if_neg hsym, hnews]
        simp only [List.isEmpty_nil, if_true]
        exact ⟨[⟨pyUpper (pyStrip v.symbol), "N/A", "N/A"⟩], by simp, rfl⟩
      · intro kf' _
        rw [processVendor, if_neg hsym, hnews]
        simp only [List.isEmpty_nil, if_true]
    · refine ⟨?_, ?_, ?_⟩
      · rw [processVendor, if_neg hsym, hnews]
        simp only [Bool.not_eq_true] at hae
        simp only [hae, Bool.false_eq_true, if_false]
        exact ⟨_, rfl⟩
      · rw [processVendor, if_neg hsym, hnews]
        simp only [Bool.not_eq_true] at hae
        simp only [hae, Bool.false_eq_true, if_false]
        refine ⟨_, ?_, rfl⟩
        rw [Ne, List.map_eq_nil_iff]
        rw [Bool.eq_false_iff, Ne, List.isEmpty_iff] at hae
        exact hae
      · intro kf' hnews'
        obtain ⟨h1, -⟩ := Prod.mk.injEq .. ▸ Except.ok.inj hnews'
        simp only [List.isEmpty_iff] at hae
        exact absurd h1 hae

/-- Witness for C2 (amended): a vendor with no articles found (placeholder
headline row) processed from an arbitrary state. -/
theorem C2_witness :
    (∃ row, (processVendor (fun _ => 0) 1 (initState 1)
        ⟨"AAA", "Alpha", fun _ => .keyError, fun _ => .invalid⟩).stock_data =
      (initState 1).stock_data ++ [row]) ∧
    (∃ hrows, hrows ≠ [] ∧
      (processVendor (fun _ => 0) 1 (initState 1)
        ⟨"AAA", "Alpha", fun _ => .keyError, fun _ => .invalid⟩).headline_data =
      (initState 1).headline_data ++ hrows) ∧
    (∀ kf, get_news_articles (fun _ => NewsResp.invalid) (pyUpper (pyStrip "AAA"))
        (pyStrip "Alpha") 10 3 = .ok ([], kf) →
      (processVendor (fun _ => 0) 1 (initState 1)
        ⟨"AAA", "Alpha", fun _ => .keyError, fun _ => .invalid⟩).headline_data =
      (initState 1).headline_data ++ [⟨pyUpper (pyStrip "AAA"), "N/A", "N/A"⟩]) :=
  C2_amended_rows_per_vendor (fun _ => 0) 1 (initState 1)
    ⟨"AAA", "Alpha", fun _ => .keyError, fun _ => .invalid⟩ (by decide)
    (fun e h => Except.noConfusion h)

/-- C1 (evidence of the code bug): the invalid-credential error re-raised
by `get_news_articles` (line 413, "Re-raise to stop execution") is caught
by the blanket per-vendor `except Exception` handler (lines 661-664), so
the run does **not** halt: with the first vendor's news search failing
with the invalid-credential kind, the second vendor is still fully
processed (it contributes the only stock and headline rows, and the
error list records the swallowed exception between the two vendors'
entries). -/
theorem C1_run_continues_after_credential_error :
    (process_vendors (fun _ => 0)
      [⟨"AAA", "Alpha Inc.", fun _ => .otherError, fun _ => .apiKeyInvalid⟩,
       ⟨"BBB", "Beta Corp", fun _ => .keyError, fun _ => .ok [⟨"Beta soars", "d", "c"⟩]⟩]
      ).stock_data.map (fun r => r.symbol) = ["BBB"] ∧
    (process_vendors (fun _ => 0)
      [⟨"AAA", "Alpha Inc.", fun _ => .otherError, fun _ => .apiKeyInvalid⟩,
       ⟨"BBB", "Beta Corp", fun _ => .keyError, fun _ => .ok [⟨"Beta soars", "d", "c"⟩]⟩]
      ).headline_data.map (fun r => (r.symbol, r.headline)) = [("BBB", "Beta soars")] ∧
    (process_vendors (fun _ => 0)
      [⟨"AAA", "Alpha Inc.", fun _ => .otherError, fun _ => .apiKeyInvalid⟩,
       ⟨"BBB", "Beta Corp", fun _ => .keyError, fun _ => .ok [⟨"Beta soars", "d", "c"⟩]⟩]
      ).stats.errors =
      ["AAA: No stock data available",
       "Row 1: Unexpected error - invalid api key",
       "BBB: No stock data available"] ∧
    (process_vendors (fun _ => 0)
      [⟨"AAA", "Alpha Inc.", fun _ => .otherError, fun _ => .apiKeyInvalid⟩,
       ⟨"BBB", "Beta Corp", fun _ => .keyError, fun _ => .ok [⟨"Beta soars", "d", "c"⟩]⟩]
      ).stats.news_success = 1 := by
  refine ⟨?_, ?_, ?_, ?_⟩ <;> decide

end VendorMonitor
